import Mathlib

/-!
Verification development for the fibrous-porous-media homogenization script
(`one_bc_mg.py`).  The script tags the six bounding-box faces of an RVE mesh,
imposes a KUBC displacement field as a Dirichlet condition, and builds the
six-dimensional rigid-body null space for the multigrid preconditioner.
The definitions below are a shallow embedding of those parts of the script;
the theorems settle the specification claims about them.
-/

namespace FibrousRVE

/-! ## Bounding box, tolerance and face predicates (source lines 107-163) -/

/-- Axis-aligned bounding box: `lo k` is `bbox[k]`, `hi k` is `bbox[k+3]`. -/
structure BBox where
  lo : Fin 3 → ℝ
  hi : Fin 3 → ℝ

/-- Embedding of `np.isclose(a, b, atol)`: numpy tests
`|a - b| <= atol + rtol * |b|` with the default `rtol = 1e-5`. -/
def npIsclose (a b atol : ℝ) : Prop :=
  |a - b| ≤ atol + (1 / 100000) * |b|

/-- Embedding of `np.linalg.norm` on a 3-vector (Euclidean norm). -/
noncomputable def npNorm3 (v : Fin 3 → ℝ) : ℝ :=
  Real.sqrt (v 0 ^ 2 + v 1 ^ 2 + v 2 ^ 2)

/-- Source line 145: `eps = np.linalg.norm(np.array(bbox[0:3]) + np.array(bbox[3:]))`. -/
noncomputable def eps (B : BBox) : ℝ :=
  npNorm3 (fun k => B.lo k + B.hi k)

/-- Source line 147: `left(x) = np.isclose(x[0], bbox[0], atol=eps)`. -/
def left (B : BBox) (x : Fin 3 → ℝ) : Prop :=
  npIsclose (x 0) (B.lo 0) (eps B)

/-- Source line 150: `right(x) = np.isclose(x[0], bbox[3], atol=eps)`. -/
def right (B : BBox) (x : Fin 3 → ℝ) : Prop :=
  npIsclose (x 0) (B.hi 0) (eps B)

/-- Source line 153: `bottom(x) = np.isclose(x[2], bbox[2], atol=eps)`. -/
def bottom (B : BBox) (x : Fin 3 → ℝ) : Prop :=
  npIsclose (x 2) (B.lo 2) (eps B)

/-- Source line 156: `top(x) = np.isclose(x[2], bbox[5], atol=eps)`. -/
def top (B : BBox) (x : Fin 3 → ℝ) : Prop :=
  npIsclose (x 2) (B.hi 2) (eps B)

/-- Source line 159: `front(x) = np.isclose(x[1], bbox[1], atol=eps)`. -/
def front (B : BBox) (x : Fin 3 → ℝ) : Prop :=
  npIsclose (x 1) (B.lo 1) (eps B)

/-- Source line 162: `back(x) = np.isclose(x[1], bbox[4], atol=eps)`. -/
def back (B : BBox) (x : Fin 3 → ℝ) : Prop :=
  npIsclose (x 1) (B.hi 1) (eps B)

/-- The unit-cube bounding box [0,1]^3 of claim C2. -/
def unitBB : BBox :=
  ⟨fun _ => 0, fun _ => 1⟩

/-- The boundary point (1, 0, 0): on the right face, not on the left plane. -/
def pt100 : Fin 3 → ℝ :=
  ![1, 0, 0]

/-- For the unit cube, the tolerance is `‖(1,1,1)‖ = √3`. -/
lemma eps_unitBB : eps unitBB = Real.sqrt 3 := by
  unfold eps npNorm3 unitBB
  norm_num

/-- The tolerance of the unit cube is at least 1. -/
lemma one_le_eps_unitBB : 1 ≤ eps unitBB := by
  rw [eps_unitBB]
  have h := Real.sqrt_le_sqrt (show (1 : ℝ) ≤ 3 by norm_num)
  rw [Real.sqrt_one] at h
  exact h

/-- Any coordinate in [0,1] is `np.isclose` to any bounding value in [0,1]
under the unit cube's tolerance, since that tolerance is `√3 ≥ 1`. -/
lemma npIsclose_unit (t c : ℝ) (h0 : 0 ≤ t) (h1 : t ≤ 1) (hc0 : 0 ≤ c) (hc1 : c ≤ 1) :
    npIsclose t c (eps unitBB) := by
  have habs : |t - c| ≤ 1 := by
    rw [abs_le]
    constructor <;> linarith
  have hnn : 0 ≤ (1 / 100000 : ℝ) * |c| := by positivity
  have he := one_le_eps_unitBB
  unfold npIsclose
  linarith

/-- C2 counterexample: on the unit cube the `left` predicate, evaluated with the
program's tolerance (`eps = √3`), is true at the boundary point (1,0,0) even
though that point lies on the right plane and not on the left plane, refuting
"returns true exactly for points lying on its own bounding plane". -/
theorem c2_left_true_off_plane :
    left unitBB pt100 ∧ pt100 0 = unitBB.hi 0 ∧ unitBB.lo 0 ≠ unitBB.hi 0 := by
  refine ⟨?_, by norm_num [pt100, unitBB], by norm_num [unitBB]⟩
  exact npIsclose_unit (pt100 0) 0 (by norm_num [pt100]) (by norm_num [pt100]) le_rfl
    zero_le_one

/-- C2 (amended): for the unit-cube bounding box, each of the six face
predicates, evaluated with the program's tolerance `eps = √3`, returns true at
EVERY point of the cube (not only on its own plane); in particular every
boundary facet is selected by all six predicates, so the union of the six
groups covers the whole boundary. -/
theorem c2_all_predicates_true_on_cube (x : Fin 3 → ℝ) (hx : ∀ k, 0 ≤ x k ∧ x k ≤ 1) :
    left unitBB x ∧ right unitBB x ∧ bottom unitBB x ∧ top unitBB x ∧
      front unitBB x ∧ back unitBB x := by
  refine ⟨?_, ?_, ?_, ?_, ?_, ?_⟩
  · exact npIsclose_unit (x 0) 0 (hx 0).1 (hx 0).2 le_rfl zero_le_one
  · exact npIsclose_unit (x 0) 1 (hx 0).1 (hx 0).2 zero_le_one le_rfl
  · exact npIsclose_unit (x 2) 0 (hx 2).1 (hx 2).2 le_rfl zero_le_one
  · exact npIsclose_unit (x 2) 1 (hx 2).1 (hx 2).2 zero_le_one le_rfl
  · exact npIsclose_unit (x 1) 0 (hx 1).1 (hx 1).2 le_rfl zero_le_one
  · exact npIsclose_unit (x 1) 1 (hx 1).1 (hx 1).2 zero_le_one le_rfl

/-- Witness for the amended C2 at the concrete boundary point (1,0,0). -/
theorem c2_all_predicates_true_on_cube_witness :
    left unitBB pt100 ∧ right unitBB pt100 ∧ bottom unitBB pt100 ∧ top unitBB pt100 ∧
      front unitBB pt100 ∧ back unitBB pt100 :=
  c2_all_predicates_true_on_cube pt100 (by intro k; fin_cases k <;> norm_num [pt100])

/-- C3: the face-classification tolerance is the single scalar
`‖bbox_min + bbox_max‖` and all six predicates use it as the absolute
tolerance, each comparing exactly one coordinate axis of the input point
against exactly one bounding extremum (left/right: axis 0 against min/max x,
front/back: axis 1 against min/max y, bottom/top: axis 2 against min/max z). -/
theorem c3_single_tolerance_one_axis_each (B : BBox) (x : Fin 3 → ℝ) :
    eps B = Real.sqrt ((B.lo 0 + B.hi 0) ^ 2 + (B.lo 1 + B.hi 1) ^ 2 + (B.lo 2 + B.hi 2) ^ 2)
    ∧ (left B x ↔ npIsclose (x 0) (B.lo 0) (eps B))
    ∧ (right B x ↔ npIsclose (x 0) (B.hi 0) (eps B))
    ∧ (front B x ↔ npIsclose (x 1) (B.lo 1) (eps B))
    ∧ (back B x ↔ npIsclose (x 1) (B.hi 1) (eps B))
    ∧ (bottom B x ↔ npIsclose (x 2) (B.lo 2) (eps B))
    ∧ (top B x ↔ npIsclose (x 2) (B.hi 2) (eps B)) :=
  ⟨rfl, Iff.rfl, Iff.rfl, Iff.rfl, Iff.rfl, Iff.rfl, Iff.rfl⟩

/-! ## KUBC boundary-displacement evaluator (source lines 200-222) -/

/-- Source line 23: `dirI = 1`. -/
def dirI : Fin 3 := 1

/-- Source line 24: `dirJ = 2`. -/
def dirJ : Fin 3 := 2

/-- Embedding of `KUBC(x, i, j, ud)` (source lines 202-208), per point:
`values = zeros; values[i] += 0.5*ud*x[j]/(bbox[j+3]-bbox[j]);
values[j] += 0.5*ud*x[i]/(bbox[i+3]-bbox[i])`.  The numpy version acts
column-wise on a point array; this acts on one point `x`. -/
noncomputable def KUBC (B : BBox) (i j : Fin 3) (ud : ℝ) (x : Fin 3 → ℝ) : Fin 3 → ℝ :=
  let values : Fin 3 → ℝ := fun _ => 0
  let values1 := Function.update values i (values i + 1 / 2 * ud * x j / (B.hi j - B.lo j))
  Function.update values1 j (values1 j + 1 / 2 * ud * x i / (B.hi i - B.lo i))

/-- Embedding of `np.mean` on a list of reals. -/
noncomputable def npMean (l : List ℝ) : ℝ :=
  l.sum / l.length

/-- Source line 200: `unit_disp = np.mean(np.array(bbox[3:]) - np.array(bbox[:3]))`. -/
noncomputable def unit_disp (B : BBox) : ℝ :=
  npMean [B.hi 0 - B.lo 0, B.hi 1 - B.lo 1, B.hi 2 - B.lo 2]

/-- Source line 220: `full_bc = lambda x: KUBC(x, dirI, dirJ, unit_disp)`. -/
noncomputable def full_bc (B : BBox) (x : Fin 3 → ℝ) : Fin 3 → ℝ :=
  KUBC B dirI dirJ (unit_disp B) x

/-- C6: for distinct direction indices the KUBC field has component `i` equal
to `0.5*ud*x[j]/extent[j]`, component `j` equal to `0.5*ud*x[i]/extent[i]`,
and the remaining component zero, at every point. -/
theorem c6_kubc_shear_field (B : BBox) (x : Fin 3 → ℝ) (i j : Fin 3) (ud : ℝ)
    (hij : i ≠ j) :
    KUBC B i j ud x i = 1 / 2 * ud * x j / (B.hi j - B.lo j)
    ∧ KUBC B i j ud x j = 1 / 2 * ud * x i / (B.hi i - B.lo i)
    ∧ ∀ k, k ≠ i → k ≠ j → KUBC B i j ud x k = 0 := by
  unfold KUBC
  refine ⟨?_, ?_, ?_⟩
  · rw [Function.update_noteq hij, Function.update_same]
    ring
  · rw [Function.update_same, Function.update_noteq (Ne.symm hij)]
    ring
  · intro k hki hkj
    rw [Function.update_noteq hkj, Function.update_noteq hki]

/-- Witness for C6 at i=1, j=2, ud=1, the unit bounding box and the point
(0.5,0.5,0.5): components 1 and 2 are each 0.25 and component 0 is 0. -/
theorem c6_kubc_shear_field_witness :
    KUBC unitBB 1 2 1 (fun _ => 1 / 2) 1 = 1 / 4
    ∧ KUBC unitBB 1 2 1 (fun _ => 1 / 2) 2 = 1 / 4
    ∧ KUBC unitBB 1 2 1 (fun _ => 1 / 2) 0 = 0 := by
  obtain ⟨h1, h2, h3⟩ := c6_kubc_shear_field unitBB (fun _ => 1 / 2) 1 2 1 (by decide)
  refine ⟨?_, ?_, h3 0 (by decide) (by decide)⟩
  · rw [h1]
    norm_num [unitBB]
  · rw [h2]
    norm_num [unitBB]

/-- C9: with equal direction indices `i = j` the two in-place increments
accumulate on the same component, so the KUBC field is `ud*x[i]/extent[i]` at
component `i` and zero at every other component. -/
theorem c9_kubc_equal_directions (B : BBox) (x : Fin 3 → ℝ) (i : Fin 3) (ud : ℝ) :
    KUBC B i i ud x = Function.update (fun _ => 0) i (ud * x i / (B.hi i - B.lo i)) := by
  funext k
  unfold KUBC
  by_cases hk : k = i
  · subst hk
    rw [Function.update_same, Function.update_same, Function.update_same]
    ring
  · rw [Function.update_noteq hk, Function.update_noteq hk, Function.update_noteq hk]

/-- C10: the magnitude handed to the KUBC evaluator is `unit_disp`, the
arithmetic mean of the three bounding-box extents, computed from the bounding
box alone. -/
theorem c10_unit_disp_is_mean_extent (B : BBox) :
    unit_disp B = ((B.hi 0 - B.lo 0) + (B.hi 1 - B.lo 1) + (B.hi 2 - B.lo 2)) / 3
    ∧ ∀ x, full_bc B x =
        KUBC B dirI dirJ (((B.hi 0 - B.lo 0) + (B.hi 1 - B.lo 1) + (B.hi 2 - B.lo 2)) / 3) x := by
  have hm : unit_disp B = ((B.hi 0 - B.lo 0) + (B.hi 1 - B.lo 1) + (B.hi 2 - B.lo 2)) / 3 := by
    unfold unit_disp npMean
    simp
    ring
  refine ⟨hm, fun x => ?_⟩
  rw [full_bc, hm]

/-! ## Facet tagging (source lines 165-227) -/

/-- The six facet groups found by `mesh.locate_entities_boundary` for the six
predicates (source lines 168-173); each group is a list of facet indices. -/
structure FacetGroups where
  left : List ℕ
  right : List ℕ
  bottom : List ℕ
  top : List ℕ
  front : List ℕ
  back : List ℕ

/-- Source lines 175-181: `marked_facets = np.hstack([left_facets, right_facets,
bottom_facets, top_facets, front_facets, back_facets])`. -/
def marked_facets (g : FacetGroups) : List ℕ :=
  g.left ++ g.right ++ g.bottom ++ g.top ++ g.front ++ g.back

/-- The facet/marker pair arrays of source lines 175-189, zipped: each facet
index is paired with the label of the group it came from (1 left, 2 right,
3 bottom, 4 top, 5 front, 6 back), in concatenation order. -/
def taggedFacets (g : FacetGroups) : List (ℕ × ℕ) :=
  g.left.map (fun f => (f, 1)) ++ g.right.map (fun f => (f, 2)) ++
    g.bottom.map (fun f => (f, 3)) ++ g.top.map (fun f => (f, 4)) ++
    g.front.map (fun f => (f, 5)) ++ g.back.map (fun f => (f, 6))

/-- Comparison by facet index, the key used by `np.argsort(marked_facets)`. -/
def facetKeyLE (a b : ℕ × ℕ) : Prop :=
  a.1 ≤ b.1

instance : DecidableRel facetKeyLE :=
  fun a b => Nat.decLe a.1 b.1

instance : IsTotal (ℕ × ℕ) facetKeyLE :=
  ⟨fun a b => Nat.le_total a.1 b.1⟩

instance : IsTrans (ℕ × ℕ) facetKeyLE :=
  ⟨fun _ _ _ hab hbc => Nat.le_trans hab hbc⟩

/-- Source lines 191-196: `facets_order = np.argsort(marked_facets);
facets_tags = meshtags(msh, fdim, marked_facets[facets_order],
markers[facets_order])` — the pair list reordered by ascending facet index. -/
def facets_tags (g : FacetGroups) : List (ℕ × ℕ) :=
  List.insertionSort facetKeyLE (taggedFacets g)

/-- Counting pairs with a fixed second component in a multiset tagged with a
constant label: the count matches when the labels agree and is zero otherwise. -/
lemma count_map_pair (l : List ℕ) (f a b : ℕ) :
    Multiset.count (f, b) (Multiset.map (fun x => (x, a)) (l : Multiset ℕ)) =
      if a = b then Multiset.count f (l : Multiset ℕ) else 0 := by
  by_cases hab : a = b
  · subst hab
    rw [if_pos rfl]
    exact Multiset.count_map_eq_count' (fun x => (x, a)) _
      (fun u v huv => ((Prod.mk.injEq ..).mp huv).1) f
  · rw [if_neg hab, Multiset.count_eq_zero]
    intro hmem
    obtain ⟨u, _, huv⟩ := Multiset.mem_map.mp hmem
    exact hab ((Prod.mk.injEq ..).mp huv).2

/-- C7: the facet-tag structure is the concatenation of the six groups tagged
1..6 in the order left, right, bottom, top, front, back, reordered by
ascending facet index; every occurrence is kept (one per matching group, with
that group's label, no deduplication), as the multiset/count identities show. -/
theorem c7_facets_tags_sorted_concat (g : FacetGroups) :
    (facets_tags g : Multiset (ℕ × ℕ)) = (taggedFacets g : Multiset (ℕ × ℕ))
    ∧ List.Sorted facetKeyLE (facets_tags g)
    ∧ ∀ f : ℕ,
        Multiset.count (f, 1) (facets_tags g : Multiset (ℕ × ℕ)) = Multiset.count f (g.left : Multiset ℕ)
      ∧ Multiset.count (f, 2) (facets_tags g : Multiset (ℕ × ℕ)) = Multiset.count f (g.right : Multiset ℕ)
      ∧ Multiset.count (f, 3) (facets_tags g : Multiset (ℕ × ℕ)) = Multiset.count f (g.bottom : Multiset ℕ)
      ∧ Multiset.count (f, 4) (facets_tags g : Multiset (ℕ × ℕ)) = Multiset.count f (g.top : Multiset ℕ)
      ∧ Multiset.count (f, 5) (facets_tags g : Multiset (ℕ × ℕ)) = Multiset.count f (g.front : Multiset ℕ)
      ∧ Multiset.count (f, 6) (facets_tags g : Multiset (ℕ × ℕ)) = Multiset.count f (g.back : Multiset ℕ) := by
  have hperm : (facets_tags g).Perm (taggedFacets g) := List.perm_insertionSort _ _
  have hq : (facets_tags g : Multiset (ℕ × ℕ)) = (taggedFacets g : Multiset (ℕ × ℕ)) :=
    Multiset.coe_eq_coe.mpr hperm
  refine ⟨hq, List.sorted_insertionSort _ _, fun f => ?_⟩
  refine ⟨?_, ?_, ?_, ?_, ?_, ?_⟩ <;>
    simp only [hq, taggedFacets, ← Multiset.coe_add, ← Multiset.map_coe,
      Multiset.count_add, count_map_pair] <;>
    norm_num

/-! ## Dirichlet boundary DOFs (source lines 210-227) -/

/-- Embedding of `facets_tags.find(lab)`: the facet indices carrying label
`lab` in the sorted facet-tag structure. -/
def findTag (g : FacetGroups) (lab : ℕ) : List ℕ :=
  ((facets_tags g).filter (fun p => p.2 == lab)).map Prod.fst

/-- Source lines 211-216: the `facets` variable — `np.hstack([facets_tags.find(1),
facets_tags.find(2), facets_tags.find(4), facets_tags.find(5),
facets_tags.find(6)])` (all labels except 3, the bottom).  Note this variable
is never used afterwards in the script. -/
def facets_sel (g : FacetGroups) : List ℕ :=
  findTag g 1 ++ findTag g 2 ++ findTag g 4 ++ findTag g 5 ++ findTag g 6

/-- Embedding of `fem.locate_dofs_topological(V, dim, fs)`: the union of the
DOFs sitting on the listed facets, given the facet-to-DOFs map of the space. -/
def locate_dofs_topological (fdofs : ℕ → Finset ℕ) (fs : List ℕ) : Finset ℕ :=
  fs.foldr (fun f s => fdofs f ∪ s) ∅

/-- Source lines 224-226: `nonbottom_dofs = fem.locate_dofs_topological(V,
facets_tags.dim, marked_facets)` — the script passes `marked_facets` (ALL six
groups, bottom included), not the `facets` selection. -/
def nonbottom_dofs (fdofs : ℕ → Finset ℕ) (g : FacetGroups) : Finset ℕ :=
  locate_dofs_topological fdofs (marked_facets g)

/-- Facet groups with a single facet (index 0) lying only in the bottom group. -/
def gBottomOnly : FacetGroups :=
  ⟨[], [], [0], [], [], []⟩

/-- A facet-to-DOFs map placing exactly DOF `f` on facet `f`. -/
def fdofsId : ℕ → Finset ℕ :=
  fun f => {f}

/-- C1 code-bug evaluation: facet 0 carries only label 3 (bottom), so its DOF 0
should be absent from the Dirichlet DOF set, and indeed the unused `facets`
selection excludes it; but the set actually passed to `fem.dirichletbc` is
built from `marked_facets` and contains DOF 0. -/
theorem c1_bottom_dof_constrained :
    facets_tags gBottomOnly = [(0, 3)]
    ∧ facets_sel gBottomOnly = []
    ∧ locate_dofs_topological fdofsId (facets_sel gBottomOnly) = ∅
    ∧ nonbottom_dofs fdofsId gBottomOnly = {0}
    ∧ 0 ∈ nonbottom_dofs fdofsId gBottomOnly := by
  refine ⟨rfl, rfl, rfl, rfl, ?_⟩
  decide

/-! ## Rigid-body null-space builder (source lines 26-60) -/

/-- The DOF layout data of the vector function space `V` that
`build_nullspace` reads: block size `bs`, locally owned size, ghost count,
the scalar DOF index lists of the three coordinate sub-spaces
(`V.sub(i).dofmap.list.array`), the blocked DOF list (`V.dofmap.list.array`)
and the DOF coordinates (`V.tabulate_dof_coordinates()`). -/
structure DofLayout where
  bs : ℕ
  size_local : ℕ
  num_ghosts : ℕ
  sub : Fin 3 → List ℕ
  dofs_block : List ℕ
  coords : ℕ → Fin 3 → ℝ

/-- Sequential numpy fancy assignment: `arr[k] = v` for each pair `(k, v)` in
order, later assignments overwriting earlier ones. -/
def scatterAssign : (ℕ → ℝ) → List (ℕ × ℝ) → (ℕ → ℝ)
  | v, [] => v
  | v, p :: rest => scatterAssign (Function.update v p.1 p.2) rest

/-- Embedding of `arr[idx] = vals` (element-wise fancy assignment). -/
def npAssign (v : ℕ → ℝ) (idx : List ℕ) (vals : List ℝ) : ℕ → ℝ :=
  scatterAssign v (idx.zip vals)

/-- Embedding of `arr[idx] = c` (constant fancy assignment). -/
def npAssignConst (v : ℕ → ℝ) (idx : List ℕ) (c : ℝ) : ℕ → ℝ :=
  scatterAssign v (idx.map (fun d => (d, c)))

/-- Source line 45: `x0, x1, x2 = x[dofs_block, 0], x[dofs_block, 1],
x[dofs_block, 2]` — coordinate `ax` of each blocked DOF, in list order. -/
def xcoord (L : DofLayout) (ax : Fin 3) : List ℝ :=
  L.dofs_block.map (fun d => L.coords d ax)

/-- Source lines 39-40: `basis[i][dofs[i]] = 1.0` on a zero array — the
translational mode for axis `i`. -/
def basisT (L : DofLayout) (i : Fin 3) : ℕ → ℝ :=
  npAssignConst (fun _ => 0) (L.sub i) 1

/-- Source lines 47-48: `basis[3][dofs[0]] = -x1; basis[3][dofs[1]] = x0`
(rotation about z). -/
def basis3 (L : DofLayout) : ℕ → ℝ :=
  npAssign (npAssign (fun _ => 0) (L.sub 0) ((xcoord L 1).map Neg.neg)) (L.sub 1) (xcoord L 0)

/-- Source lines 49-50: `basis[4][dofs[0]] = x2; basis[4][dofs[2]] = -x0`
(rotation about y). -/
def basis4 (L : DofLayout) : ℕ → ℝ :=
  npAssign (npAssign (fun _ => 0) (L.sub 0) (xcoord L 2)) (L.sub 2) ((xcoord L 0).map Neg.neg)

/-- Source lines 51-52: `basis[5][dofs[2]] = x1; basis[5][dofs[1]] = -x2`
(rotation about x). -/
def basis5 (L : DofLayout) : ℕ → ℝ :=
  npAssign (npAssign (fun _ => 0) (L.sub 2) (xcoord L 1)) (L.sub 1) ((xcoord L 2).map Neg.neg)

/-- Source line 33: the list `basis` of the six mode arrays (after the
assignments of lines 39-52; each array conceptually has `bs * length1`
entries, represented here as a function of the entry index). -/
def basisArrays (L : DofLayout) : List (ℕ → ℝ) :=
  [basisT L 0, basisT L 1, basisT L 2, basis3 L, basis4 L, basis5 L]

/-- A mode array materialized at its full length `bs * length1`
(`np.zeros(bs * length1)` after the assignments), `length1 = length0 + num_ghosts`. -/
def fullArray (L : DofLayout) (v : ℕ → ℝ) : List ℝ :=
  (List.range (L.bs * (L.size_local + L.num_ghosts))).map v

/-- Source line 55: the slice `x[:bs*length0]` handed to
`PETSc.Vec().createWithArray` — the locally owned prefix of a mode array. -/
def ownedArray (L : DofLayout) (v : ℕ → ℝ) : List ℝ :=
  (fullArray L v).take (L.bs * L.size_local)

/-- Source line 55: `basis_petsc = [PETSc.Vec().createWithArray(x[:bs*length0], ...)
for x in basis]`. -/
def basis_petsc (L : DofLayout) : List (List ℝ) :=
  (basisArrays L).map (ownedArray L)

/-- Source lines 54-60 of `build_nullspace`: orthonormalize the owned vectors
(`la.orthonormalize`), assert orthonormality (`assert la.is_orthonormal`) and
only then build and return the null-space object; an assertion failure aborts
(`none`).  The two `dolfinx.la` routines are library collaborators, passed in
as parameters. -/
def build_nullspace (L : DofLayout)
    (orthonormalize : List (List ℝ) → List (List ℝ))
    (is_orthonormal : List (List ℝ) → Bool) : Option (List (List ℝ)) :=
  let vecs := orthonormalize (basis_petsc L)
  if is_orthonormal vecs then some vecs else none

/-- Scatter assignment leaves an index outside the assigned keys unchanged. -/
lemma scatterAssign_not_mem (ps : List (ℕ × ℝ)) (v : ℕ → ℝ) (k : ℕ)
    (h : k ∉ ps.map Prod.fst) : scatterAssign v ps k = v k := by
  induction ps generalizing v with
  | nil => rfl
  | cons p rest ih =>
    simp only [List.map_cons, List.mem_cons] at h
    push_neg at h
    rw [scatterAssign, ih _ h.2, Function.update_noteq h.1]

/-- Scatter assignment with pairwise distinct keys stores the paired value. -/
lemma scatterAssign_mem (ps : List (ℕ × ℝ)) (v : ℕ → ℝ) (k : ℕ) (val : ℝ)
    (hnd : (ps.map Prod.fst).Nodup) (hmem : (k, val) ∈ ps) :
    scatterAssign v ps k = val := by
  induction ps generalizing v with
  | nil => cases hmem
  | cons p rest ih =>
    simp only [List.map_cons, List.nodup_cons] at hnd
    rcases List.mem_cons.mp hmem with heq | htail
    · subst heq
      rw [scatterAssign, scatterAssign_not_mem _ _ _ hnd.1, Function.update_same]
    · rw [scatterAssign]
      exact ih _ hnd.2 htail

/-- `npAssign` leaves an index outside the index list unchanged. -/
lemma npAssign_not_mem (v : ℕ → ℝ) (idx : List ℕ) (vals : List ℝ) (k : ℕ)
    (h : k ∉ idx) : npAssign v idx vals k = v k := by
  apply scatterAssign_not_mem
  intro hk
  obtain ⟨p, hp, hfst⟩ := List.mem_map.mp hk
  exact h (hfst ▸ (List.of_mem_zip hp).1)

/-- `npAssign` with distinct indices and matching lengths stores the value
zipped with the index. -/
lemma npAssign_mem (v : ℕ → ℝ) (idx : List ℕ) (vals : List ℝ) (k : ℕ) (val : ℝ)
    (hnd : idx.Nodup) (hlen : idx.length ≤ vals.length)
    (hmem : (k, val) ∈ idx.zip vals) : npAssign v idx vals k = val := by
  apply scatterAssign_mem _ _ _ _ _ hmem
  rw [List.map_fst_zip _ _ hlen]
  exact hnd

/-- Length of a coordinate column equals the blocked-DOF list length. -/
lemma xcoord_length (L : DofLayout) (ax : Fin 3) :
    (xcoord L ax).length = L.dofs_block.length := by
  simp [xcoord]

/-- Constant fancy assignment stores the constant at every assigned index. -/
lemma npAssignConst_mem (v : ℕ → ℝ) (idx : List ℕ) (c : ℝ) (k : ℕ)
    (hnd : idx.Nodup) (h : k ∈ idx) : npAssignConst v idx c k = c := by
  apply scatterAssign_mem
  · have hk : (idx.map (fun d => (d, c))).map Prod.fst = idx := by
      rw [List.map_map, show (Prod.fst ∘ fun d : ℕ => (d, c)) = id from rfl, List.map_id]
    rw [hk]
    exact hnd
  · exact List.mem_map.mpr ⟨k, h, rfl⟩

/-- Constant fancy assignment leaves unassigned indices unchanged. -/
lemma npAssignConst_not_mem (v : ℕ → ℝ) (idx : List ℕ) (c : ℝ) (k : ℕ)
    (h : k ∉ idx) : npAssignConst v idx c k = v k := by
  apply scatterAssign_not_mem
  simpa using h

/-- C4: before orthonormalization, the three translational basis arrays hold
1.0 exactly on their own coordinate sub-space and 0 elsewhere, and the three
rotational arrays hold the infinitesimal-rotation values (`basis3`: −y on
x-DOFs, +x on y-DOFs; `basis4`: +z on x-DOFs, −x on z-DOFs; `basis5`: +y on
z-DOFs, −z on y-DOFs), all unlisted entries being 0.  A pair `(d, c)` in the
zip of a sub-space DOF list with a coordinate column states that `d` is the
t-th DOF of that sub-space and `c` the corresponding coordinate of the t-th
blocked DOF. -/
theorem c4_rigid_body_modes (L : DofLayout)
    (hnd : ∀ i : Fin 3, (L.sub i).Nodup)
    (hdisj : ∀ i j : Fin 3, i ≠ j → ∀ d ∈ L.sub i, d ∉ L.sub j)
    (hlen : ∀ i : Fin 3, (L.sub i).length = L.dofs_block.length) :
    (∀ i : Fin 3, ∀ d : ℕ,
        (d ∈ L.sub i → basisT L i d = 1) ∧ (d ∉ L.sub i → basisT L i d = 0))
    ∧ (∀ (d : ℕ) (c : ℝ),
        ((d, c) ∈ (L.sub 0).zip (xcoord L 1) → basis3 L d = -c)
      ∧ ((d, c) ∈ (L.sub 1).zip (xcoord L 0) → basis3 L d = c))
    ∧ (∀ d : ℕ, d ∉ L.sub 0 → d ∉ L.sub 1 → basis3 L d = 0)
    ∧ (∀ (d : ℕ) (c : ℝ),
        ((d, c) ∈ (L.sub 0).zip (xcoord L 2) → basis4 L d = c)
      ∧ ((d, c) ∈ (L.sub 2).zip (xcoord L 0) → basis4 L d = -c))
    ∧ (∀ d : ℕ, d ∉ L.sub 0 → d ∉ L.sub 2 → basis4 L d = 0)
    ∧ (∀ (d : ℕ) (c : ℝ),
        ((d, c) ∈ (L.sub 2).zip (xcoord L 1) → basis5 L d = c)
      ∧ ((d, c) ∈ (L.sub 1).zip (xcoord L 2) → basis5 L d = -c))
    ∧ (∀ d : ℕ, d ∉ L.sub 1 → d ∉ L.sub 2 → basis5 L d = 0) := by
  have hxlen : ∀ i ax : Fin 3, (L.sub i).length ≤ (xcoord L ax).length := by
    intro i ax
    rw [xcoord_length, hlen]
  have hxlen' : ∀ i ax : Fin 3, (L.sub i).length ≤ ((xcoord L ax).map Neg.neg).length := by
    intro i ax
    rw [List.length_map]
    exact hxlen i ax
  have hnegmem : ∀ (i ax : Fin 3) (d : ℕ) (c : ℝ), (d, c) ∈ (L.sub i).zip (xcoord L ax) →
      (d, -c) ∈ (L.sub i).zip ((xcoord L ax).map Neg.neg) := by
    intro i ax d c hm
    rw [List.zip_map_right]
    exact List.mem_map.mpr ⟨(d, c), hm, rfl⟩
  refine ⟨?_, ?_, ?_, ?_, ?_, ?_, ?_⟩
  · intro i d
    constructor
    · intro hd
      exact npAssignConst_mem _ _ _ _ (hnd i) hd
    · intro hd
      exact npAssignConst_not_mem _ _ _ _ hd
  · intro d c
    constructor
    · intro hm
      have hd0 : d ∈ L.sub 0 := (List.of_mem_zip hm).1
      have hd1 : d ∉ L.sub 1 := hdisj 0 1 (by decide) d hd0
      rw [basis3, npAssign_not_mem _ _ _ _ hd1]
      exact npAssign_mem _ _ _ _ _ (hnd 0) (hxlen' 0 1) (hnegmem 0 1 d c hm)
    · intro hm
      exact npAssign_mem _ _ _ _ _ (hnd 1) (hxlen 1 0) hm
  · intro d h0 h1
    rw [basis3, npAssign_not_mem _ _ _ _ h1, npAssign_not_mem _ _ _ _ h0]
  · intro d c
    constructor
    · intro hm
      have hd0 : d ∈ L.sub 0 := (List.of_mem_zip hm).1
      have hd2 : d ∉ L.sub 2 := hdisj 0 2 (by decide) d hd0
      rw [basis4, npAssign_not_mem _ _ _ _ hd2]
      exact npAssign_mem _ _ _ _ _ (hnd 0) (hxlen 0 2) hm
    · intro hm
      exact npAssign_mem _ _ _ _ _ (hnd 2) (hxlen' 2 0) (hnegmem 2 0 d c hm)
  · intro d h0 h2
    rw [basis4, npAssign_not_mem _ _ _ _ h2, npAssign_not_mem _ _ _ _ h0]
  · intro d c
    constructor
    · intro hm
      have hd2 : d ∈ L.sub 2 := (List.of_mem_zip hm).1
      have hd1 : d ∉ L.sub 1 := hdisj 2 1 (by decide) d hd2
      rw [basis5, npAssign_not_mem _ _ _ _ hd1]
      exact npAssign_mem _ _ _ _ _ (hnd 2) (hxlen 2 1) hm
    · intro hm
      exact npAssign_mem _ _ _ _ _ (hnd 1) (hxlen' 1 2) (hnegmem 1 2 d c hm)
  · intro d h1 h2
    rw [basis5, npAssign_not_mem _ _ _ _ h1, npAssign_not_mem _ _ _ _ h2]

/-- A one-block DOF layout: blocked DOF 0 at coordinates (2, 3, 5), with
scalar DOFs 0, 1, 2 for the x, y, z sub-spaces. -/
def Lw : DofLayout :=
  { bs := 3
    size_local := 1
    num_ghosts := 0
    sub := ![[0], [1], [2]]
    dofs_block := [0]
    coords := fun d ax => if d = 0 then (![2, 3, 5] : Fin 3 → ℝ) ax else 0 }

/-- Witness for C4 on the concrete layout `Lw`: the rotational arrays take the
values −y, +x, +z, −x, +y, −z of the coordinates (2, 3, 5), the translational
array holds 1 on its sub-space and 0 off it, and an unlisted entry is 0. -/
theorem c4_rigid_body_modes_witness :
    basisT Lw 0 0 = 1 ∧ basisT Lw 0 1 = 0
    ∧ basis3 Lw 0 = -3 ∧ basis3 Lw 1 = 2 ∧ basis3 Lw 2 = 0
    ∧ basis4 Lw 0 = 5 ∧ basis4 Lw 2 = -2
    ∧ basis5 Lw 2 = 3 ∧ basis5 Lw 1 = -5 := by
  obtain ⟨ht, h3, h3z, h4, h4z, h5, h5z⟩ :=
    c4_rigid_body_modes Lw (by decide) (by decide) (by decide)
  refine ⟨(ht 0 0).1 (by decide), (ht 0 1).2 (by decide), ?_, ?_, ?_, ?_, ?_, ?_, ?_⟩
  · exact (h3 0 3).1 (by simp [Lw, xcoord])
  · exact (h3 1 2).2 (by simp [Lw, xcoord])
  · exact h3z 2 (by decide) (by decide)
  · exact (h4 0 5).1 (by simp [Lw, xcoord])
  · exact (h4 2 2).2 (by simp [Lw, xcoord])
  · exact (h5 2 3).1 (by simp [Lw, xcoord])
  · exact (h5 1 5).2 (by simp [Lw, xcoord])

/-- C5: whenever `build_nullspace` returns a null space at all, the returned
vectors are exactly the orthonormalized vectors and they passed the
`is_orthonormal` assertion; the check happens after orthonormalization and
before the null-space object is built, and a failed check aborts instead of
returning. -/
theorem c5_assert_orthonormal_before_return (L : DofLayout)
    (orthonormalize : List (List ℝ) → List (List ℝ))
    (is_orthonormal : List (List ℝ) → Bool) (v : List (List ℝ))
    (h : build_nullspace L orthonormalize is_orthonormal = some v) :
    is_orthonormal v = true ∧ v = orthonormalize (basis_petsc L) := by
  simp only [build_nullspace] at h
  split at h
  · next hc =>
      injection h with h2
      subst h2
      exact ⟨hc, rfl⟩
  · next hc =>
      cases h

/-- Witness for C5 with identity orthonormalization and an always-true check
on the concrete layout `Lw`. -/
theorem c5_assert_orthonormal_before_return_witness :
    (fun _ : List (List ℝ) => true) (id (basis_petsc Lw)) = true
    ∧ id (basis_petsc Lw) = id (basis_petsc Lw) :=
  c5_assert_orthonormal_before_return Lw id (fun _ => true) (id (basis_petsc Lw)) rfl

/-- C8: the algebraic vectors handed to orthonormalization are exactly the
first `bs * size_local` (locally owned) entries of the six assembled basis
arrays, for any layout with any number of ghost DOFs; no entry at a ghost
position appears in them. -/
theorem c8_only_owned_entries (L : DofLayout) :
    basis_petsc L = (basisArrays L).map (fun v => (List.range (L.bs * L.size_local)).map v)
    ∧ ∀ v : ℕ → ℝ, (ownedArray L v).length = L.bs * L.size_local := by
  have hle : L.bs * L.size_local ≤ L.bs * (L.size_local + L.num_ghosts) :=
    Nat.mul_le_mul_left _ (Nat.le_add_right _ _)
  have hown : ∀ v : ℕ → ℝ, ownedArray L v = (List.range (L.bs * L.size_local)).map v := by
    intro v
    unfold ownedArray fullArray
    rw [← List.map_take, List.take_range, Nat.min_eq_left hle]
  constructor
  · unfold basis_petsc
    rw [funext hown]
  · intro v
    rw [hown]
    simp

end FibrousRVE
